import Mathlib

/-!
Shallow embedding of `src/local_whisper_app.py` (`WhisperQueueApp`): the data
model, the timestamp formatter, the SRT/VTT subtitle writers, the queue store
and the queue-processing logic, together with theorems settling the spec
claims about them.

Modelling conventions: Python floats are exact rationals (`ℚ`), Python ints
are `ℤ` with `//` as `Int.fdiv`, file writes are modelled by the string
written, and the external whisper engine is an explicit parameter
(`load : String → String → Except String PyModel`, per-item transcription
outcome `result : Nat → Bool`).
-/

/-- Whitespace characters removed by Python `str.strip()` (ASCII range;
the full Unicode table is abstracted to its ASCII part). -/
def isPyWhitespace (c : Char) : Bool :=
  c == ' ' || c == '\t' || c == '\n' || c == '\x0b' || c == '\x0c' || c == '\r'

/-- Python `str.strip()`: drop leading and trailing whitespace. -/
def pyStrip (s : List Char) : List Char :=
  ((s.dropWhile isPyWhitespace).reverse.dropWhile isPyWhitespace).reverse

/-- Python `.replace('-->', '->')` as used at lines 422 and 431:
left-to-right replacement of every literal `-->` occurrence by `->`. -/
def arrowSanitize : List Char → List Char
  | '-' :: '-' :: '>' :: rest => '-' :: '>' :: arrowSanitize rest
  | c :: rest => c :: arrowSanitize rest
  | [] => []

/-- `segment["text"].strip().replace('-->', '->')`. -/
def sanitizeText (s : String) : String :=
  String.mk (arrowSanitize (pyStrip s.data))

/-- Concatenation of a list of strings in order. -/
def strJoin : List String → String
  | [] => ""
  | s :: rest => s ++ strJoin rest

/-- `pat` occurs contiguously inside `s` (Python `in` on strings). -/
def containsSub (s pat : List Char) : Bool :=
  (List.range (s.length + 1)).any fun k => pat.isPrefixOf (s.drop k)

/-- Python `pat in s` for strings. -/
def strContains (s pat : String) : Bool :=
  containsSub s.data pat.data

/-- Python `round()` on an exact rational value: round half to even. -/
def pyRound (q : ℚ) : ℤ :=
  let f := ⌊q⌋
  if q - f < 1/2 then f
  else if 1/2 < q - f then f + 1
  else if f % 2 = 0 then f else f + 1

/-- Python zero-padded decimal formatting `f"%0wd" % n`: the decimal digits of
`n`, with a leading `-` for negatives, left-padded with `0` to `width`. -/
def pyFormatZeroPad (width : Nat) (n : ℤ) : String :=
  if n < 0 then
    let s := Nat.repr n.natAbs
    "-" ++ String.mk (List.replicate (width - 1 - s.length) '0') ++ s
  else
    let s := Nat.repr n.toNat
    String.mk (List.replicate (width - s.length) '0') ++ s

/-- `WhisperQueueApp.format_timestamp` (lines 406-415). -/
def format_timestamp (seconds : ℚ) (always_include_hours : Bool := false)
    (decimal_marker : String := ",") : String :=
  let milliseconds := pyRound (seconds * 1000)
  let hours := milliseconds.fdiv 3600000
  let milliseconds := milliseconds - hours * 3600000
  let minutes := milliseconds.fdiv 60000
  let milliseconds := milliseconds - minutes * 60000
  let seconds := milliseconds.fdiv 1000
  let milliseconds := milliseconds - seconds * 1000
  let hours_marker := if always_include_hours || hours > 0
    then pyFormatZeroPad 2 hours ++ ":" else "00:"
  hours_marker ++ pyFormatZeroPad 2 minutes ++ ":" ++ pyFormatZeroPad 2 seconds ++
    decimal_marker ++ pyFormatZeroPad 3 milliseconds

/-- The integer part of `format_timestamp` after the initial rounding:
`format_timestamp s aih m = formatMs (pyRound (s * 1000)) aih m`. -/
def formatMs (milliseconds : ℤ) (always_include_hours : Bool)
    (decimal_marker : String) : String :=
  let hours := milliseconds.fdiv 3600000
  let milliseconds := milliseconds - hours * 3600000
  let minutes := milliseconds.fdiv 60000
  let milliseconds := milliseconds - minutes * 60000
  let seconds := milliseconds.fdiv 1000
  let milliseconds := milliseconds - seconds * 1000
  let hours_marker := if always_include_hours || hours > 0
    then pyFormatZeroPad 2 hours ++ ":" else "00:"
  hours_marker ++ pyFormatZeroPad 2 minutes ++ ":" ++ pyFormatZeroPad 2 seconds ++
    decimal_marker ++ pyFormatZeroPad 3 milliseconds

/-- A transcription segment `{start, end, text}` as returned by the engine. -/
structure Segment where
  start : ℚ
  «end» : ℚ
  text : String
deriving DecidableEq

/-- The `write_srt` loop body (lines 419-423), writing blocks from sequence
number `i` on: for each segment a 1-based index line, a timing line with
forced hours and comma decimal marker, the sanitized text, and a blank line. -/
def write_srt_from : Nat → List Segment → String
  | _, [] => ""
  | i, segment :: rest =>
    let start := format_timestamp segment.start true ","
    let «end» := format_timestamp segment.«end» true ","
    let text := sanitizeText segment.text
    (Nat.repr i ++ "\n" ++ start ++ " --> " ++ «end» ++ "\n" ++ text ++ "\n\n") ++
      write_srt_from (i + 1) rest

/-- `WhisperQueueApp.write_srt` (lines 417-423): the file content written. -/
def write_srt (segments : List Segment) : String :=
  write_srt_from 1 segments

/-- The `write_vtt` loop body (lines 428-432). -/
def write_vtt_body : List Segment → String
  | [] => ""
  | segment :: rest =>
    let start := format_timestamp segment.start false "."
    let «end» := format_timestamp segment.«end» false "."
    let text := sanitizeText segment.text
    (start ++ " --> " ++ «end» ++ "\n" ++ text ++ "\n\n") ++ write_vtt_body rest

/-- `WhisperQueueApp.write_vtt` (lines 425-432): the file content written. -/
def write_vtt (segments : List Segment) : String :=
  "WEBVTT\n\n" ++ write_vtt_body segments

/-- One SRT block exactly as claim C3 words it: sequence number line, timing
line `start --> end` (forced hours, comma marker), then the segment text with
every literal `-->` replaced by `->` — and nothing else done to the text —
then a blank line. -/
def srtBlockClaim (i : Nat) (segment : Segment) : String :=
  Nat.repr i ++ "\n" ++ format_timestamp segment.start true "," ++ " --> " ++
    format_timestamp segment.«end» true "," ++ "\n" ++
    String.mk (arrowSanitize segment.text.data) ++ "\n\n"

/-- SRT serialization as claim C3 words it (no whitespace stripping). -/
def write_srt_claimSpec (segments : List Segment) : String :=
  strJoin ((List.enumFrom 1 segments).map fun p => srtBlockClaim p.1 p.2)

/-- One SRT block as the amended claim words it: as `srtBlockClaim`, but the
text is first stripped of leading/trailing whitespace. -/
def srtBlockStripped (i : Nat) (segment : Segment) : String :=
  Nat.repr i ++ "\n" ++ format_timestamp segment.start true "," ++ " --> " ++
    format_timestamp segment.«end» true "," ++ "\n" ++
    String.mk (arrowSanitize (pyStrip segment.text.data)) ++ "\n\n"

/-- SRT serialization as the amended claim words it. -/
def write_srt_amendedSpec (segments : List Segment) : String :=
  strJoin ((List.enumFrom 1 segments).map fun p => srtBlockStripped p.1 p.2)

/-- One VTT cue exactly as claim C5 words it: `start --> end` (dot marker, no
forced-hour flag), the segment text with `-->` sanitized, and a blank line. -/
def vttBlockClaim (segment : Segment) : String :=
  format_timestamp segment.start false "." ++ " --> " ++
    format_timestamp segment.«end» false "." ++ "\n" ++
    String.mk (arrowSanitize segment.text.data) ++ "\n\n"

/-- VTT serialization as claim C5 words it (no whitespace stripping). -/
def write_vtt_claimSpec (segments : List Segment) : String :=
  "WEBVTT\n\n" ++ strJoin (segments.map vttBlockClaim)

/-- One VTT cue as the amended claim words it: text stripped first. -/
def vttBlockStripped (segment : Segment) : String :=
  format_timestamp segment.start false "." ++ " --> " ++
    format_timestamp segment.«end» false "." ++ "\n" ++
    String.mk (arrowSanitize (pyStrip segment.text.data)) ++ "\n\n"

/-- VTT serialization as the amended claim words it. -/
def write_vtt_amendedSpec (segments : List Segment) : String :=
  "WEBVTT\n\n" ++ strJoin (segments.map vttBlockStripped)

/-- Decides whether a character list matches `\d\d:\d\d:\d\d[,.]\d\d\d`
(anchored at both ends). -/
def tsPatternList : List Char → Bool
  | [h1, h2, c1, m1, m2, c2, s1, s2, d, x1, x2, x3] =>
    h1.isDigit && h2.isDigit && c1 == ':' && m1.isDigit && m2.isDigit && c2 == ':' &&
      s1.isDigit && s2.isDigit && (d == ',' || d == '.') &&
      x1.isDigit && x2.isDigit && x3.isDigit
  | _ => false

/-- The regex of claim C4, `^\d\d:\d\d:\d\d[,.]\d\d\d$`, as a decidable
string predicate. -/
def matchesTimestampPattern (s : String) : Bool :=
  tsPatternList s.data

/-- Status of a queue item as stored in `item["status"]`. (`Processing` only
ever appears in the UI tree, never in the queue dictionaries.) -/
inductive Status where
  | Pending
  | Processing
  | Done
  | Error
deriving DecidableEq

/-- A queue entry `{path, status}` (the UI tree id is dropped). -/
structure QueueItem where
  path : String
  status : Status
deriving DecidableEq

/-- The duplicate test of `add_to_queue`: the `for item in self.queue`
loop returning early when `item['path'] == path`. -/
def queueHasPath : List QueueItem → String → Bool
  | [], _ => false
  | item :: rest, path => item.path == path || queueHasPath rest path

/-- `WhisperQueueApp.add_to_queue` (lines 258-265), queue state only. -/
def add_to_queue (queue : List QueueItem) (path : String) : List QueueItem :=
  if queueHasPath queue path then queue
  else queue ++ [⟨path, Status.Pending⟩]

/-- Output of the per-item loop: final queue and the indices of the items
that were passed to `model.transcribe`. -/
structure LoopOut where
  queue : List QueueItem
  transcribed : List Nat
deriving DecidableEq

/-- The per-item loop of `WhisperQueueApp.process_queue` (lines 339-389),
starting at index `i`. `stop i` models `self.stop_event.is_set()` at the
boundary check before item `i`; `result i` models whether the transcription
call and the subsequent file writes for item `i` all succeed (`true`) or
raise (`false`). On `stop`, `break` leaves the remaining items untouched;
`Done` items are skipped (`continue`); otherwise the item is transcribed and
its status becomes `Done` on success and `Error` on failure. -/
def processItems (stop result : Nat → Bool) : Nat → List QueueItem → LoopOut
  | _, [] => ⟨[], []⟩
  | i, item :: rest =>
    if stop i then ⟨item :: rest, []⟩
    else if item.status == Status.Done then
      let out := processItems stop result (i + 1) rest
      ⟨item :: out.queue, out.transcribed⟩
    else
      let out := processItems stop result (i + 1) rest
      ⟨⟨item.path, if result i then Status.Done else Status.Error⟩ :: out.queue,
        i :: out.transcribed⟩

/-- A loaded whisper model, identified by the `(name, device)` passed to
`whisper.load_model`. -/
abbrev PyModel := String × String

/-- The model memoization state: `self.model` / `self.current_model_name`. -/
structure ModelSlot where
  model : Option PyModel
  current_model_name : Option String
deriving DecidableEq

/-- The trace of one model-resolution step: the `(name, device)` arguments of
each `whisper.load_model` call made, the resulting slot state, and whether the
run was aborted (`self.reset_ui(); return`). -/
structure ResolveOut where
  attempts : List (String × String)
  slot : ModelSlot
  aborted : Bool
deriving DecidableEq

/-- `"CUDA" in str(e)` (line 314). -/
def mentionsCUDA (e : String) : Bool :=
  strContains e "CUDA"

/-- The model-resolution step of `process_queue` (lines 304-327). `load`
models `whisper.load_model`; an exception is an `Except.error` carrying
`str(e)`. A load is attempted only when the requested name differs from
`current_model_name` or no model is loaded; on failure, a single CPU retry
happens when `"CUDA" in str(e)` or the target device was `"cuda"`;
otherwise (and on retry failure) the run is aborted with the slot unchanged. -/
def resolve_model (load : String → String → Except String PyModel)
    (slot : ModelSlot) (model_size target_device : String) : ResolveOut :=
  if slot.current_model_name != some model_size || slot.model.isNone then
    match load model_size target_device with
    | Except.ok m => ⟨[(model_size, target_device)], ⟨some m, some model_size⟩, false⟩
    | Except.error e =>
      if mentionsCUDA e || target_device == "cuda" then
        match load model_size "cpu" with
        | Except.ok m =>
          ⟨[(model_size, target_device), (model_size, "cpu")], ⟨some m, some model_size⟩, false⟩
        | Except.error _ =>
          ⟨[(model_size, target_device), (model_size, "cpu")], slot, true⟩
      else ⟨[(model_size, target_device)], slot, true⟩
  else ⟨[], slot, false⟩

/-- Output of a whole `process_queue` run. -/
structure RunOut where
  queue : List QueueItem
  transcribed : List Nat
  slot : ModelSlot
  aborted : Bool
deriving DecidableEq

/-- `WhisperQueueApp.process_queue` (lines 299-393): the model-resolution step
followed by the per-item loop; a fatal load failure ends the run with the
queue untouched. -/
def process_queue (load : String → String → Except String PyModel)
    (stop result : Nat → Bool) (slot : ModelSlot)
    (model_size target_device : String) (queue : List QueueItem) : RunOut :=
  let r := resolve_model load slot model_size target_device
  if r.aborted then ⟨queue, [], r.slot, true⟩
  else
    let out := processItems stop result 0 queue
    ⟨out.queue, out.transcribed, r.slot, false⟩

/-! ## Queue store lemmas -/

lemma queueHasPath_iff (q : List QueueItem) (p : String) :
    queueHasPath q p = true ↔ ∃ it ∈ q, it.path = p := by
  induction q with
  | nil => simp [queueHasPath]
  | cons item rest ih =>
    simp only [queueHasPath, Bool.or_eq_true, beq_iff_eq, ih, List.mem_cons]
    constructor
    · rintro (h | ⟨it, hit, hp⟩)
      · exact ⟨item, Or.inl rfl, h⟩
      · exact ⟨it, Or.inr hit, hp⟩
    · rintro ⟨it, hit | hit, hp⟩
      · exact Or.inl (hit ▸ hp)
      · exact Or.inr ⟨it, hit, hp⟩

/-- C9: `add_to_queue` is a no-op when an item with an equal path is present,
otherwise appends a `Pending` item at the end; adding the same path twice is
the same as adding it once (so two adds to an empty queue leave length 1), and
path-uniqueness of the queue is preserved. -/
theorem addToQueue_dedup_spec (q : List QueueItem) (p : String) :
    ((∃ it ∈ q, it.path = p) → add_to_queue q p = q) ∧
    ((∀ it ∈ q, it.path ≠ p) → add_to_queue q p = q ++ [⟨p, Status.Pending⟩]) ∧
    add_to_queue (add_to_queue q p) p = add_to_queue q p ∧
    ((q.map QueueItem.path).Nodup → ((add_to_queue q p).map QueueItem.path).Nodup) ∧
    (add_to_queue (add_to_queue [] p) p).length = 1 := by
  refine ⟨?_, ?_, ?_, ?_, ?_⟩
  · intro h
    unfold add_to_queue
    rw [if_pos ((queueHasPath_iff q p).mpr h)]
  · intro h
    unfold add_to_queue
    rw [if_neg]
    simp only [queueHasPath_iff]
    rintro ⟨it, hit, hp⟩
    exact h it hit hp
  · cases hq : queueHasPath q p with
    | true =>
      have h1 : add_to_queue q p = q := by
        unfold add_to_queue
        rw [if_pos hq]
      rw [h1]
      exact h1
    | false =>
      have h1 : add_to_queue q p = q ++ [⟨p, Status.Pending⟩] := by
        unfold add_to_queue
        rw [if_neg (by simp [hq])]
      have h2 : queueHasPath (q ++ [⟨p, Status.Pending⟩]) p = true := by
        rw [queueHasPath_iff]
        exact ⟨⟨p, Status.Pending⟩, by simp, rfl⟩
      have h3 : add_to_queue (q ++ [⟨p, Status.Pending⟩]) p = q ++ [⟨p, Status.Pending⟩] := by
        unfold add_to_queue
        rw [if_pos h2]
      rw [h1]
      exact h3
  · intro hnd
    cases hq : queueHasPath q p with
    | true =>
      unfold add_to_queue
      rw [if_pos hq]
      exact hnd
    | false =>
      unfold add_to_queue
      rw [if_neg (by simp [hq])]
      have hnp : ∀ it ∈ q, it.path ≠ p := by
        intro it hit hp
        have : queueHasPath q p = true := (queueHasPath_iff q p).mpr ⟨it, hit, hp⟩
        simp [hq] at this
      simp only [List.map_append, List.map_cons, List.map_nil]
      rw [List.nodup_append]
      refine ⟨hnd, List.nodup_singleton p, ?_⟩
      intro x hx hx1
      simp only [List.mem_singleton] at hx1
      subst hx1
      simp only [List.mem_map] at hx
      obtain ⟨it, hit, hpath⟩ := hx
      exact hnp it hit hpath
  · simp [add_to_queue, queueHasPath]

/-- Closed instantiation of `addToQueue_dedup_spec`, discharging its
conditional parts on concrete queues. -/
theorem addToQueue_dedup_spec_witness :
    add_to_queue [⟨"a", Status.Pending⟩] "a" = [⟨"a", Status.Pending⟩] ∧
    add_to_queue [⟨"b", Status.Done⟩] "a" =
      [⟨"b", Status.Done⟩, ⟨"a", Status.Pending⟩] ∧
    (add_to_queue (add_to_queue [] "a") "a").length = 1 :=
  ⟨(addToQueue_dedup_spec [⟨"a", Status.Pending⟩] "a").1 ⟨⟨"a", Status.Pending⟩, by simp, rfl⟩,
   (addToQueue_dedup_spec [⟨"b", Status.Done⟩] "a").2.1 (by intro it hit; simp at hit; simp [hit]),
   (addToQueue_dedup_spec [] "a").2.2.2.2⟩

/-! ## Queue processor loop lemmas -/

lemma processItems_length (stop result : Nat → Bool) :
    ∀ (q : List QueueItem) (i : Nat),
      (processItems stop result i q).queue.length = q.length := by
  intro q
  induction q with
  | nil => intro i; rfl
  | cons item rest ih =>
    intro i
    simp only [processItems]
    cases hs : stop i with
    | true => simp
    | false =>
      cases hd : item.status == Status.Done with
      | true => simp [ih]
      | false => simp [ih]

lemma processItems_stop_untouched (stop result : Nat → Bool) :
    ∀ (q : List QueueItem) (i j : Nat), stop (i + j) = true →
      (processItems stop result i q).queue[j]? = q[j]? := by
  intro q
  induction q with
  | nil => intro i j _; rfl
  | cons item rest ih =>
    intro i j hj
    simp only [processItems]
    cases hs : stop i with
    | true => rfl
    | false =>
      cases j with
      | zero =>
        simp at hj
        rw [hj] at hs
        cases hs
      | succ j' =>
        have hj' : stop ((i + 1) + j') = true := by
          have : (i + 1) + j' = i + (j' + 1) := by omega
          rw [this]
          exact hj
        cases hd : item.status == Status.Done with
        | true => simpa using ih (i + 1) j' hj'
        | false => simpa using ih (i + 1) j' hj'

lemma processItems_done_untouched (stop result : Nat → Bool) :
    ∀ (q : List QueueItem) (i j : Nat) (it : QueueItem),
      q[j]? = some it → it.status = Status.Done →
      (processItems stop result i q).queue[j]? = some it := by
  intro q
  induction q with
  | nil => intro i j it h _; simp at h
  | cons item rest ih =>
    intro i j it hget hdone
    simp only [processItems]
    cases hs : stop i with
    | true => exact hget
    | false =>
      cases j with
      | zero =>
        simp at hget
        subst hget
        have hd : item.status == Status.Done := by simp [hdone]
        simp [hd]
      | succ j' =>
        simp only [List.getElem?_cons_succ] at hget
        cases hd : item.status == Status.Done with
        | true => simpa using ih (i + 1) j' it hget hdone
        | false => simpa using ih (i + 1) j' it hget hdone

lemma processItems_transcribed_spec (stop result : Nat → Bool) :
    ∀ (q : List QueueItem) (i t : Nat), t ∈ (processItems stop result i q).transcribed →
      ∃ j it, t = i + j ∧ stop (i + j) = false ∧ q[j]? = some it ∧
        it.status ≠ Status.Done := by
  intro q
  induction q with
  | nil => intro i t h; simp [processItems] at h
  | cons item rest ih =>
    intro i t ht
    simp only [processItems] at ht
    cases hs : stop i with
    | true => rw [hs] at ht; simp at ht
    | false =>
      rw [hs] at ht
      simp only [Bool.false_eq_true, if_false] at ht
      cases hd : item.status == Status.Done with
      | true =>
        rw [hd] at ht
        simp only [if_true] at ht
        obtain ⟨j', it, rfl, hstop, hget, hnd⟩ := ih (i + 1) t ht
        exact ⟨j' + 1, it, by omega, by rw [show i + (j' + 1) = (i + 1) + j' by omega]; exact hstop,
          by simpa using hget, hnd⟩
      | false =>
        rw [hd] at ht
        simp only [Bool.false_eq_true, if_false, List.mem_cons] at ht
        cases ht with
        | inl h =>
          subst h
          refine ⟨0, item, by omega, by simpa using hs, by simp, ?_⟩
          intro hcon
          simp [hcon] at hd
        | inr h =>
          obtain ⟨j', it, rfl, hstop, hget, hnd⟩ := ih (i + 1) t h
          exact ⟨j' + 1, it, by omega, by rw [show i + (j' + 1) = (i + 1) + j' by omega]; exact hstop,
            by simpa using hget, hnd⟩

lemma processItems_all_done (stop result : Nat → Bool) :
    ∀ (q : List QueueItem) (i : Nat), (∀ it ∈ q, it.status = Status.Done) →
      processItems stop result i q = ⟨q, []⟩ := by
  intro q
  induction q with
  | nil => intro i _; rfl
  | cons item rest ih =>
    intro i hall
    simp only [processItems]
    cases hs : stop i with
    | true => rfl
    | false =>
      have hd : item.status == Status.Done := by simp [hall item (by simp)]
      simp only [Bool.false_eq_true, if_false, hd, if_true]
      rw [ih (i + 1) (fun it hit => hall it (by simp [hit]))]

lemma processItems_noStop_status (stop result : Nat → Bool) (hstop : ∀ n, stop n = false) :
    ∀ (q : List QueueItem) (i j : Nat) (it : QueueItem), q[j]? = some it →
      (processItems stop result i q).queue[j]? =
        some (if it.status = Status.Done then it
              else ⟨it.path, if result (i + j) then Status.Done else Status.Error⟩) := by
  intro q
  induction q with
  | nil => intro i j it h; simp at h
  | cons item rest ih =>
    intro i j it hget
    simp only [processItems, hstop i, Bool.false_eq_true, if_false]
    cases j with
    | zero =>
      simp only [List.getElem?_cons_zero, Option.some.injEq] at hget
      subst hget
      by_cases hdone : item.status = Status.Done
      · have hd : (item.status == Status.Done) = true := by simp [hdone]
        simp [hd, hdone]
      · have hd : (item.status == Status.Done) = false := by simp [hdone]
        simp [hd, hdone]
    | succ j' =>
      simp only [List.getElem?_cons_succ] at hget
      have := ih (i + 1) j' it hget
      rw [show (i + 1) + j' = i + (j' + 1) by omega] at this
      cases hd : item.status == Status.Done with
      | true => simpa using this
      | false => simpa using this

/-- C6: once the stop signal has been raised (the stop flag is monotone within
a run and is set at step `k`), the processor transcribes no item whose
boundary check saw the flag — every transcribed index lies strictly before
`k` — all items from position `k` on are left untouched, and items already
marked `Done` keep status `Done`. -/
theorem processItems_stop_halts (stop result : Nat → Bool) (q : List QueueItem) (k : Nat)
    (hmono : ∀ a b : Nat, a ≤ b → stop a = true → stop b = true) (hk : stop k = true) :
    (∀ t ∈ (processItems stop result 0 q).transcribed, stop t = false ∧ t < k) ∧
    (∀ j : Nat, k ≤ j → (processItems stop result 0 q).queue[j]? = q[j]?) ∧
    (∀ (j : Nat) (it : QueueItem), q[j]? = some it → it.status = Status.Done →
      (processItems stop result 0 q).queue[j]? = some it) := by
  refine ⟨?_, ?_, ?_⟩
  · intro t ht
    obtain ⟨j, it, rfl, hstop, -, -⟩ := processItems_transcribed_spec stop result q 0 t ht
    refine ⟨by simpa using hstop, ?_⟩
    by_contra hlt
    push_neg at hlt
    have := hmono k (0 + j) (by omega) hk
    rw [this] at hstop
    cases hstop
  · intro j hj
    exact processItems_stop_untouched stop result q 0 j
      (by simpa using hmono k j hj hk)
  · intro j it hget hdone
    exact processItems_done_untouched stop result q 0 j it hget hdone

/-- Closed instantiation of `processItems_stop_halts`: stop raised from step 1
on; the first item is still processed, the later items are untouched. -/
theorem processItems_stop_halts_witness :
    (∀ t ∈ (processItems (fun n => decide (1 ≤ n)) (fun _ => true) 0
        [⟨"a", Status.Pending⟩, ⟨"b", Status.Done⟩, ⟨"c", Status.Pending⟩]).transcribed,
      (fun n => decide (1 ≤ n)) t = false ∧ t < 1) ∧
    (∀ j : Nat, 1 ≤ j →
      (processItems (fun n => decide (1 ≤ n)) (fun _ => true) 0
        [⟨"a", Status.Pending⟩, ⟨"b", Status.Done⟩, ⟨"c", Status.Pending⟩]).queue[j]? =
      ([⟨"a", Status.Pending⟩, ⟨"b", Status.Done⟩, ⟨"c", Status.Pending⟩] :
        List QueueItem)[j]?) ∧
    (∀ (j : Nat) (it : QueueItem),
      ([⟨"a", Status.Pending⟩, ⟨"b", Status.Done⟩, ⟨"c", Status.Pending⟩] :
        List QueueItem)[j]? = some it → it.status = Status.Done →
      (processItems (fun n => decide (1 ≤ n)) (fun _ => true) 0
        [⟨"a", Status.Pending⟩, ⟨"b", Status.Done⟩, ⟨"c", Status.Pending⟩]).queue[j]? =
        some it) :=
  processItems_stop_halts (fun n => decide (1 ≤ n)) (fun _ => true)
    [⟨"a", Status.Pending⟩, ⟨"b", Status.Done⟩, ⟨"c", Status.Pending⟩] 1
    (fun a b hab ha => decide_eq_true (Nat.le_trans (of_decide_eq_true ha) hab))
    (by decide)

/-- C7: an item already marked `Done` is never passed to transcription and its
entry is left untouched; a run over a fully `Done` queue makes no
transcription calls and leaves the queue unchanged (idempotent re-run). -/
theorem processItems_done_idempotent (stop result : Nat → Bool) (q : List QueueItem) :
    (∀ (j : Nat) (it : QueueItem), q[j]? = some it → it.status = Status.Done →
      j ∉ (processItems stop result 0 q).transcribed ∧
        (processItems stop result 0 q).queue[j]? = some it) ∧
    ((∀ it ∈ q, it.status = Status.Done) →
      processItems stop result 0 q = ⟨q, []⟩) := by
  constructor
  · intro j it hget hdone
    constructor
    · intro hmem
      obtain ⟨j', it', hj', -, hget', hnd⟩ :=
        processItems_transcribed_spec stop result q 0 j hmem
      have hjj : j = j' := by omega
      subst hjj
      rw [hget] at hget'
      have : it = it' := by simpa using hget'
      subst this
      exact hnd hdone
    · exact processItems_done_untouched stop result q 0 j it hget hdone
  · intro hall
    exact processItems_all_done stop result q 0 hall

/-- Closed instantiation of `processItems_done_idempotent` on a queue whose
single item is `Done`. -/
theorem processItems_done_idempotent_witness :
    (0 ∉ (processItems (fun _ => false) (fun _ => true) 0
        [⟨"a", Status.Done⟩]).transcribed ∧
      (processItems (fun _ => false) (fun _ => true) 0
        [⟨"a", Status.Done⟩]).queue[0]? = some ⟨"a", Status.Done⟩) ∧
    processItems (fun _ => false) (fun _ => true) 0 [⟨"a", Status.Done⟩] =
      ⟨[⟨"a", Status.Done⟩], []⟩ :=
  ⟨(processItems_done_idempotent (fun _ => false) (fun _ => true)
      [⟨"a", Status.Done⟩]).1 0 ⟨"a", Status.Done⟩ rfl rfl,
   (processItems_done_idempotent (fun _ => false) (fun _ => true)
      [⟨"a", Status.Done⟩]).2 (by intro it hit; simp at hit; simp [hit])⟩

/-- C8: with no stop request, every queue entry is fully characterized: a
`Done` item is untouched, any other item ends `Done` when its transcription
and file writes succeed and `Error` when they raise — so a per-item failure
sets exactly that item to `Error`, the processor still reaches every later
item, and no other item's entry is affected. -/
theorem processItems_error_continues (stop result : Nat → Bool) (q : List QueueItem)
    (hstop : ∀ n, stop n = false) :
    ∀ (j : Nat) (it : QueueItem), q[j]? = some it →
      (processItems stop result 0 q).queue[j]? =
        some (if it.status = Status.Done then it
              else ⟨it.path, if result j then Status.Done else Status.Error⟩) := by
  intro j it hget
  have := processItems_noStop_status stop result hstop q 0 j it hget
  simpa using this

/-- Closed instantiation of `processItems_error_continues`: the first item
fails (marked `Error`), the second is still processed and marked `Done`. -/
theorem processItems_error_continues_witness :
    (∀ n : Nat, (fun _ : Nat => false) n = false) ∧
    (processItems (fun _ => false) (fun n => decide (n ≠ 0)) 0
        [⟨"a", Status.Pending⟩, ⟨"b", Status.Pending⟩]).queue[0]? =
      some (if (Status.Pending : Status) = Status.Done then ⟨"a", Status.Pending⟩
            else ⟨"a", if decide ((0 : Nat) ≠ 0) then Status.Done else Status.Error⟩) ∧
    (processItems (fun _ => false) (fun n => decide (n ≠ 0)) 0
        [⟨"a", Status.Pending⟩, ⟨"b", Status.Pending⟩]).queue[1]? =
      some (if (Status.Pending : Status) = Status.Done then ⟨"b", Status.Pending⟩
            else ⟨"b", if decide ((1 : Nat) ≠ 0) then Status.Done else Status.Error⟩) :=
  ⟨fun _ => rfl,
   processItems_error_continues (fun _ => false) (fun n => decide (n ≠ 0))
     [⟨"a", Status.Pending⟩, ⟨"b", Status.Pending⟩] (fun _ => rfl) 0
     ⟨"a", Status.Pending⟩ rfl,
   processItems_error_continues (fun _ => false) (fun n => decide (n ≠ 0))
     [⟨"a", Status.Pending⟩, ⟨"b", Status.Pending⟩] (fun _ => rfl) 1
     ⟨"b", Status.Pending⟩ rfl⟩

/-! ## Model resolution lemmas -/

lemma resolveModel_condition_bool (slot : ModelSlot) (ms : String) :
    (slot.current_model_name != some ms || slot.model.isNone) = true ↔
      (slot.current_model_name ≠ some ms ∨ slot.model = none) := by
  simp [Option.isNone_iff_eq_none]

/-- C1 counterexample: with a load that fails with a message mentioning CUDA,
a one-time CPU retry happens (two load attempts are made) even though the
originally requested device was `"cpu"`, not GPU — refuting "a one-time CPU
retry happens exactly when the originally requested device was GPU". -/
theorem resolveModel_cpu_retry_counterexample :
    (resolve_model (fun _ _ => Except.error "CUDA error") ⟨none, none⟩
        "base" "cpu").attempts = [("base", "cpu"), ("base", "cpu")] ∧
      ("cpu" : String) ≠ "cuda" := by
  constructor
  · rfl
  · decide

/-- C1 (amended): a model load is attempted iff the requested name differs
from the currently loaded one or no model is loaded; on a load failure the
one-time CPU retry happens exactly when the requested device was `"cuda"` or
the error message contains `"CUDA"`; in every other load-failure case the run
is aborted as fatal after the single attempt, and when the CPU retry itself
fails the run is likewise aborted. -/
theorem resolveModel_load_retry_spec (load : String → String → Except String PyModel)
    (slot : ModelSlot) (ms td : String) :
    ((resolve_model load slot ms td).attempts ≠ [] ↔
      (slot.current_model_name ≠ some ms ∨ slot.model = none)) ∧
    (∀ e : String, load ms td = Except.error e →
      (slot.current_model_name ≠ some ms ∨ slot.model = none) →
      (((resolve_model load slot ms td).attempts = [(ms, td), (ms, "cpu")]) ↔
          (mentionsCUDA e = true ∨ td = "cuda")) ∧
        (¬(mentionsCUDA e = true ∨ td = "cuda") →
          resolve_model load slot ms td = ⟨[(ms, td)], slot, true⟩) ∧
        ((mentionsCUDA e = true ∨ td = "cuda") →
          ∀ e2 : String, load ms "cpu" = Except.error e2 →
            resolve_model load slot ms td = ⟨[(ms, td), (ms, "cpu")], slot, true⟩)) := by
  by_cases hcond : slot.current_model_name ≠ some ms ∨ slot.model = none
  · have hb : (slot.current_model_name != some ms || slot.model.isNone) = true :=
      (resolveModel_condition_bool slot ms).mpr hcond
    constructor
    · cases hload : load ms td with
      | ok m => simp [resolve_model, hb, hload, hcond]
      | error e =>
        by_cases hcuda : mentionsCUDA e || td == "cuda"
        · cases hload2 : load ms "cpu" with
          | ok m => simp [resolve_model, hb, hload, hcuda, hload2, hcond]
          | error e2 => simp [resolve_model, hb, hload, hcuda, hload2, hcond]
        · simp [resolve_model, hb, hload, hcuda, hcond]
    · intro e hload _
      by_cases hcuda : mentionsCUDA e = true ∨ td = "cuda"
      · have hcb : (mentionsCUDA e || td == "cuda") = true := by
          rcases hcuda with h | h
          · simp [h]
          · simp [h]
        refine ⟨?_, fun hn => absurd hcuda hn, ?_⟩
        · cases hload2 : load ms "cpu" with
          | ok m => simp [resolve_model, hb, hload, hcb, hload2, hcuda]
          | error e2 => simp [resolve_model, hb, hload, hcb, hload2, hcuda]
        · intro _ e2 hload2
          simp [resolve_model, hb, hload, hcb, hload2]
      · have hcb : (mentionsCUDA e || td == "cuda") = false := by
          push_neg at hcuda
          simp [hcuda.1, hcuda.2]
        refine ⟨?_, ?_, fun h => absurd h hcuda⟩
        · simp only [resolve_model, hb, if_true, hload, hcb, Bool.false_eq_true, if_false]
          constructor
          · intro h
            cases h
          · intro h
            exact absurd h hcuda
        · intro _
          simp [resolve_model, hb, hload, hcb]
  · have hb : (slot.current_model_name != some ms || slot.model.isNone) = false := by
      rw [Bool.eq_false_iff]
      intro h
      exact hcond ((resolveModel_condition_bool slot ms).mp h)
    constructor
    · simp [resolve_model, hb, hcond]
    · intro e _ hc
      exact absurd hc hcond

/-- Closed instantiation of `resolveModel_load_retry_spec`: a GPU-targeted
load that fails is retried on CPU; when the retry also fails the run aborts. -/
theorem resolveModel_load_retry_spec_witness :
    resolve_model (fun _ _ => Except.error "boom") ⟨none, none⟩ "base" "cuda" =
      ⟨[("base", "cuda"), ("base", "cpu")], ⟨none, none⟩, true⟩ :=
  (((resolveModel_load_retry_spec (fun _ _ => Except.error "boom") ⟨none, none⟩
      "base" "cuda").2 "boom" rfl (Or.inr (by simp))).2.2 (Or.inr rfl) "boom" rfl)

/-- C2 counterexample: after a successful load of `"base"` on `"cuda"`, a run
requesting the same model name on device `"cpu"` makes no load attempt at all
— refuting "a run requesting the same model name on a different device does
reload the model for the newly requested device". -/
theorem resolveModel_device_change_counterexample :
    (resolve_model (fun n d => Except.ok (n, d))
        (resolve_model (fun n d => Except.ok (n, d)) ⟨none, none⟩ "base" "cuda").slot
        "base" "cpu").attempts = [] ∧
      ("cpu" : String) ≠ "cuda" := by
  constructor
  · rfl
  · decide

/-- C2 (amended): a successful model-resolution step records the loaded model
name, and a subsequent run requesting the same model name performs no load
attempt regardless of the device it requests — the device is not part of the
memoization key, so requesting the same name on a different device does not
reload, and requesting it on the same device does not either. -/
theorem resolveModel_memoization (load : String → String → Except String PyModel)
    (slot : ModelSlot) (ms td : String)
    (h : (resolve_model load slot ms td).aborted = false) :
    (resolve_model load slot ms td).slot.current_model_name = some ms ∧
    ∀ td' : String,
      (resolve_model load (resolve_model load slot ms td).slot ms td').attempts = [] := by
  by_cases hcond : (slot.current_model_name != some ms || slot.model.isNone) = true
  · cases hload : load ms td with
    | ok m =>
      have hres : resolve_model load slot ms td =
          ⟨[(ms, td)], ⟨some m, some ms⟩, false⟩ := by
        simp [resolve_model, hcond, hload]
      rw [hres]
      refine ⟨rfl, fun td' => ?_⟩
      simp [resolve_model]
    | error e =>
      by_cases hcuda : (mentionsCUDA e || td == "cuda") = true
      · cases hload2 : load ms "cpu" with
        | ok m =>
          have hres : resolve_model load slot ms td =
              ⟨[(ms, td), (ms, "cpu")], ⟨some m, some ms⟩, false⟩ := by
            simp [resolve_model, hcond, hload, hcuda, hload2]
          rw [hres]
          refine ⟨rfl, fun td' => ?_⟩
          simp [resolve_model]
        | error e2 =>
          have hres : (resolve_model load slot ms td).aborted = true := by
            simp [resolve_model, hcond, hload, hcuda, hload2]
          rw [hres] at h
          cases h
      · have hres : (resolve_model load slot ms td).aborted = true := by
          simp only [Bool.not_eq_true] at hcuda
          simp [resolve_model, hcond, hload, hcuda]
        rw [hres] at h
        cases h
  · have hcond' : (slot.current_model_name != some ms || slot.model.isNone) = false :=
      Bool.eq_false_iff.mpr hcond
    have hres : resolve_model load slot ms td = ⟨[], slot, false⟩ := by
      simp [resolve_model, hcond']
    rw [hres]
    have hname : slot.current_model_name = some ms := by
      rcases Bool.or_eq_false_iff.mp hcond' with ⟨h1, -⟩
      simpa using h1
    refine ⟨hname, fun td' => ?_⟩
    have hmodel : slot.model.isNone = false := (Bool.or_eq_false_iff.mp hcond').2
    simp [resolve_model, hname, hmodel]

/-- Closed instantiation of `resolveModel_memoization`: load `"base"` on
`"cuda"`, then request `"base"` again on `"cpu"` — no load attempt is made. -/
theorem resolveModel_memoization_witness :
    (resolve_model (fun n d => Except.ok (n, d)) ⟨none, none⟩
        "base" "cuda").slot.current_model_name = some "base" ∧
    ∀ td' : String,
      (resolve_model (fun n d => Except.ok (n, d))
        (resolve_model (fun n d => Except.ok (n, d)) ⟨none, none⟩ "base" "cuda").slot
        "base" td').attempts = [] :=
  resolveModel_memoization (fun n d => Except.ok (n, d)) ⟨none, none⟩ "base" "cuda" rfl

/-! ## Timestamp formatter lemmas -/

lemma format_timestamp_eq_formatMs (s : ℚ) (aih : Bool) (marker : String) :
    format_timestamp s aih marker = formatMs (pyRound (s * 1000)) aih marker := rfl

lemma pyRound_intCast (n : ℤ) : pyRound ((n : ℚ)) = n := by
  unfold pyRound
  rw [Int.floor_intCast]
  rw [if_pos]
  rw [sub_self]
  norm_num

lemma pyRound_int_thousand (m : ℤ) : pyRound ((m : ℚ) * 1000) = m * 1000 := by
  have h : ((m : ℚ) * 1000) = ((m * 1000 : ℤ) : ℚ) := by push_cast; ring
  rw [h, pyRound_intCast]

lemma format_timestamp_int (m : ℤ) (aih : Bool) (marker : String) :
    format_timestamp ((m : ℚ)) aih marker = formatMs (m * 1000) aih marker := by
  rw [format_timestamp_eq_formatMs, pyRound_int_thousand]

lemma ft_zero_comma : format_timestamp 0 true "," = "00:00:00,000" := by
  have h : (0 : ℚ) = ((0 : ℤ) : ℚ) := by norm_num
  rw [h, format_timestamp_int]
  decide

lemma ft_one_comma : format_timestamp 1 true "," = "00:00:01,000" := by
  have h : (1 : ℚ) = ((1 : ℤ) : ℚ) := by norm_num
  rw [h, format_timestamp_int]
  decide

lemma ft_zero_dot : format_timestamp 0 false "." = "00:00:00.000" := by
  have h : (0 : ℚ) = ((0 : ℤ) : ℚ) := by norm_num
  rw [h, format_timestamp_int]
  decide

lemma ft_one_dot : format_timestamp 1 false "." = "00:00:01.000" := by
  have h : (1 : ℚ) = ((1 : ℤ) : ℚ) := by norm_num
  rw [h, format_timestamp_int]
  decide

lemma ft_five : format_timestamp 5 false "." = "00:00:05.000" := by
  have h : (5 : ℚ) = ((5 : ℤ) : ℚ) := by norm_num
  rw [h, format_timestamp_int]
  decide

lemma ft_hundred_hours : format_timestamp 360000 false "," = "100:00:00,000" := by
  have h : (360000 : ℚ) = ((360000 : ℤ) : ℚ) := by norm_num
  rw [h, format_timestamp_int]
  decide

/-! ## Subtitle writer theorems -/

lemma write_srt_from_eq_spec :
    ∀ (segments : List Segment) (i : Nat),
      write_srt_from i segments =
        strJoin ((List.enumFrom i segments).map fun p => srtBlockStripped p.1 p.2) := by
  intro segments
  induction segments with
  | nil => intro i; rfl
  | cons segment rest ih =>
    intro i
    simp only [write_srt_from, List.enumFrom_cons, List.map_cons, strJoin, ih (i + 1)]
    rfl

lemma write_vtt_body_eq_spec :
    ∀ segments : List Segment,
      write_vtt_body segments = strJoin (segments.map vttBlockStripped) := by
  intro segments
  induction segments with
  | nil => rfl
  | cons segment rest ih =>
    simp only [write_vtt_body, List.map_cons, strJoin, ih]
    rfl

/-- C3 counterexample: for the segment `{0, 1, " x "}` (text with surrounding
whitespace) the SRT output differs from the block the claim describes,
because `write_srt` strips the text before writing it. -/
theorem write_srt_claim_counterexample :
    write_srt [⟨0, 1, " x "⟩] ≠ write_srt_claimSpec [⟨0, 1, " x "⟩] := by
  intro h
  rw [write_srt, write_srt_from, write_srt_from] at h
  rw [write_srt_claimSpec] at h
  simp only [List.enumFrom_cons, List.enumFrom_nil, List.map_cons, List.map_nil,
    strJoin, srtBlockClaim] at h
  rw [ft_zero_comma, ft_one_comma] at h
  revert h
  decide

/-- C3 (amended): `write_srt` emits, for each segment in original list order,
a block made of a 1-based sequence number line, a `start --> end` line with
both timestamps using a forced two-digit hour field and comma decimal marker,
the segment text stripped of leading/trailing whitespace with every literal
`-->` replaced by `->`, and a blank-line separator; in particular for the
single segment `{0, 1, "a-->b"}` the output contains
`"1\n00:00:00,000 --> 00:00:01,000\na->b\n\n"`. -/
theorem write_srt_serialization :
    (∀ segments : List Segment, write_srt segments = write_srt_amendedSpec segments) ∧
    strContains (write_srt [⟨0, 1, "a-->b"⟩])
      "1\n00:00:00,000 --> 00:00:01,000\na->b\n\n" = true := by
  constructor
  · intro segments
    rw [write_srt, write_srt_amendedSpec, write_srt_from_eq_spec]
  · have h : write_srt [⟨0, 1, "a-->b"⟩] =
        "1\n" ++ "00:00:00,000" ++ " --> " ++ "00:00:01,000" ++ "\n" ++
          sanitizeText "a-->b" ++ "\n\n" := by
      rw [write_srt, write_srt_from, write_srt_from]
      rw [ft_zero_comma, ft_one_comma]
      rfl
    rw [h]
    decide

/-- C5 counterexample: for the segment `{0, 1, " x "}` the VTT output differs
from the cue the claim describes, because `write_vtt` strips the text before
writing it. -/
theorem write_vtt_claim_counterexample :
    write_vtt [⟨0, 1, " x "⟩] ≠ write_vtt_claimSpec [⟨0, 1, " x "⟩] := by
  intro h
  rw [write_vtt, write_vtt_body, write_vtt_body] at h
  rw [write_vtt_claimSpec] at h
  simp only [List.map_cons, List.map_nil, strJoin, vttBlockClaim] at h
  rw [ft_zero_dot, ft_one_dot] at h
  revert h
  decide

/-- C5 (amended): `write_vtt` emits the header line `WEBVTT` followed by a
blank line, then for each segment in original order a `start --> end` line
with timestamps formatted with dot decimal marker and without the forced-hour
flag, followed by the segment text stripped of leading/trailing whitespace
with every literal `-->` replaced by `->` and a blank-line separator; segment
ordering and timing values are not modified. -/
theorem write_vtt_serialization :
    (∀ segments : List Segment, write_vtt segments = write_vtt_amendedSpec segments) ∧
    write_vtt [⟨0, 1, "a-->b"⟩] =
      "WEBVTT\n\n" ++ "00:00:00.000" ++ " --> " ++ "00:00:01.000" ++ "\n" ++
        "a->b" ++ "\n\n" := by
  constructor
  · intro segments
    rw [write_vtt, write_vtt_amendedSpec, write_vtt_body_eq_spec]
  · rw [write_vtt, write_vtt_body, write_vtt_body]
    rw [ft_zero_dot, ft_one_dot]
    decide

/-! ## Stripping lemmas (C10) -/

lemma dropWhile_head_false (p : Char → Bool) :
    ∀ (l : List Char) (c : Char) (rest : List Char),
      List.dropWhile p l = c :: rest → p c = false := by
  intro l
  induction l with
  | nil => intro c rest h; cases h
  | cons a t ih =>
    intro c rest h
    by_cases ha : p a
    · rw [List.dropWhile_cons_of_pos ha] at h
      exact ih c rest h
    · rw [List.dropWhile_cons_of_neg ha] at h
      cases h
      exact Bool.eq_false_iff.mpr ha

lemma dropWhile_dropWhile (p : Char → Bool) (l : List Char) :
    List.dropWhile p (List.dropWhile p l) = List.dropWhile p l := by
  cases h : List.dropWhile p l with
  | nil => rfl
  | cons c rest =>
    rw [List.dropWhile_cons_of_neg]
    rw [dropWhile_head_false p l c rest h]
    intro hc
    cases hc

lemma dropWhile_append_singleton (p : Char → Bool) (a : Char) (ha : p a = false) :
    ∀ xs : List Char, List.dropWhile p (xs ++ [a]) = List.dropWhile p xs ++ [a] := by
  intro xs
  induction xs with
  | nil =>
    simp only [List.nil_append, List.dropWhile_nil]
    rw [List.dropWhile_cons_of_neg (by rw [ha]; intro hc; cases hc)]
  | cons c t ih =>
    by_cases h : p c
    · rw [List.cons_append, List.dropWhile_cons_of_pos h, List.dropWhile_cons_of_pos h, ih]
    · rw [List.cons_append, List.dropWhile_cons_of_neg h, List.dropWhile_cons_of_neg h,
        List.cons_append]

lemma pyStrip_idem (l : List Char) : pyStrip (pyStrip l) = pyStrip l := by
  unfold pyStrip
  cases hA : List.dropWhile isPyWhitespace l with
  | nil => simp
  | cons a t =>
    have ha : isPyWhitespace a = false := dropWhile_head_false _ l a t hA
    have hB : List.dropWhile isPyWhitespace ((a :: t).reverse) =
        List.dropWhile isPyWhitespace t.reverse ++ [a] := by
      rw [List.reverse_cons]
      exact dropWhile_append_singleton _ a ha t.reverse
    rw [hB]
    rw [List.reverse_append]
    simp only [List.reverse_cons, List.reverse_nil, List.nil_append, List.singleton_append]
    rw [List.dropWhile_cons_of_neg (by rw [ha]; intro hc; cases hc)]
    rw [List.reverse_cons, List.reverse_reverse]
    rw [dropWhile_append_singleton _ a ha]
    rw [dropWhile_dropWhile]
    rw [List.reverse_append]
    simp

/-- C10: both `write_srt` and `write_vtt` strip leading and trailing
whitespace from each segment's text before the `-->` replacement — the output
for a segment equals the output for the same segment with pre-stripped text,
and a segment whose text carries surrounding whitespace is not serialized
verbatim (its block differs from the claim-literal serialization). -/
theorem writers_strip_text :
    (∀ (s e : ℚ) (t : String),
        write_srt [⟨s, e, t⟩] = write_srt [⟨s, e, String.mk (pyStrip t.data)⟩] ∧
        write_vtt [⟨s, e, t⟩] = write_vtt [⟨s, e, String.mk (pyStrip t.data)⟩]) ∧
    write_srt [⟨0, 1, " a "⟩] ≠ write_srt_claimSpec [⟨0, 1, " a "⟩] ∧
    write_vtt [⟨0, 1, " a "⟩] ≠ write_vtt_claimSpec [⟨0, 1, " a "⟩] := by
  refine ⟨?_, ?_, ?_⟩
  · intro s e t
    constructor
    · simp only [write_srt, write_srt_from, sanitizeText, pyStrip_idem]
    · simp only [write_vtt, write_vtt_body, sanitizeText, pyStrip_idem]
  · intro h
    rw [write_srt, write_srt_from, write_srt_from] at h
    rw [write_srt_claimSpec] at h
    simp only [List.enumFrom_cons, List.enumFrom_nil, List.map_cons, List.map_nil,
      strJoin, srtBlockClaim] at h
    rw [ft_zero_comma, ft_one_comma] at h
    revert h
    decide
  · intro h
    rw [write_vtt, write_vtt_body, write_vtt_body] at h
    rw [write_vtt_claimSpec] at h
    simp only [List.map_cons, List.map_nil, strJoin, vttBlockClaim] at h
    rw [ft_zero_dot, ft_one_dot] at h
    revert h
    decide

/-! ## Timestamp pattern machinery (C4) -/

lemma pyRound_nonneg (q : ℚ) (h : 0 ≤ q) : 0 ≤ pyRound q := by
  have hf : (0 : ℤ) ≤ ⌊q⌋ := Int.floor_nonneg.mpr h
  simp only [pyRound]
  split_ifs <;> omega

lemma pyRound_le_of_le (q : ℚ) (n : ℤ) (h : q ≤ (n : ℚ)) : pyRound q ≤ n := by
  have hfl : ⌊q⌋ ≤ n := by
    have := Int.floor_le_floor h
    rwa [Int.floor_intCast] at this
  have key : ¬(q - (⌊q⌋ : ℚ) < 1/2) → ⌊q⌋ + 1 ≤ n := by
    intro h1
    push_neg at h1
    by_contra hcon
    push_neg at hcon
    have hfn : ⌊q⌋ = n := le_antisymm hfl (by omega)
    have hq : (n : ℚ) + 1/2 ≤ q := by
      rw [← hfn]
      linarith
    linarith
  simp only [pyRound]
  split_ifs with h1 h2 h3
  · exact hfl
  · exact key h1
  · exact hfl
  · exact key h1

lemma fdivStage (a b N : ℤ) (hb : 0 < b) (h0 : 0 ≤ a) (h1 : a < N * b) :
    0 ≤ a.fdiv b ∧ a.fdiv b < N ∧ 0 ≤ a - a.fdiv b * b ∧ a - a.fdiv b * b < b := by
  rw [Int.fdiv_eq_ediv _ (le_of_lt hb)]
  have hmod : a - a / b * b = a % b := by
    rw [Int.emod_def]
    ring
  refine ⟨Int.ediv_nonneg h0 (le_of_lt hb), Int.ediv_lt_of_lt_mul hb h1, ?_, ?_⟩
  · rw [hmod]
    exact Int.emod_nonneg a (ne_of_gt hb)
  · rw [hmod]
    exact Int.emod_lt_of_pos a hb

lemma strData_append (a b : String) : (a ++ b).data = a.data ++ b.data := rfl

lemma digitChar_isDigit : ∀ n : Nat, n < 10 → (Nat.digitChar n).isDigit = true := by decide

lemma pad2_digits : ∀ n : Nat, n < 100 →
    (pyFormatZeroPad 2 ((n : ℤ))).data =
      [Nat.digitChar (n / 10), Nat.digitChar (n % 10)] := by decide

set_option maxRecDepth 20000 in
lemma pad3_digits : ∀ n : Nat, n < 1000 →
    (pyFormatZeroPad 3 ((n : ℤ))).data =
      [Nat.digitChar (n / 100), Nat.digitChar (n / 10 % 10), Nat.digitChar (n % 10)] := by
  decide

lemma formatMs_pattern (ms : ℤ) (aih : Bool) (marker : String)
    (h0 : 0 ≤ ms) (h1 : ms < 360000000) (hm : marker = "," ∨ marker = ".") :
    matchesTimestampPattern (formatMs ms aih marker) = true := by
  simp only [formatMs, matchesTimestampPattern]
  obtain ⟨hH0, hH1, hR10, hR11⟩ := fdivStage ms 3600000 100 (by norm_num) h0 (by omega)
  obtain ⟨hMi0, hMi1, hR20, hR21⟩ :=
    fdivStage (ms - ms.fdiv 3600000 * 3600000) 60000 60 (by norm_num) hR10 (by omega)
  obtain ⟨hS0, hS1, hR30, hR31⟩ :=
    fdivStage ((ms - ms.fdiv 3600000 * 3600000) -
      (ms - ms.fdiv 3600000 * 3600000).fdiv 60000 * 60000) 1000 60 (by norm_num) hR20
      (by omega)
  set H := ms.fdiv 3600000 with hHdef
  set R1 := ms - H * 3600000 with hR1def
  set Mi := R1.fdiv 60000 with hMidef
  set R2 := R1 - Mi * 60000 with hR2def
  set S := R2.fdiv 1000 with hSdef
  set R3 := R2 - S * 1000 with hR3def
  have hHn : H = ((H.toNat : ℤ)) := (Int.toNat_of_nonneg hH0).symm
  have hMin : Mi = ((Mi.toNat : ℤ)) := (Int.toNat_of_nonneg hMi0).symm
  have hSn : S = ((S.toNat : ℤ)) := (Int.toNat_of_nonneg hS0).symm
  have hR3n : R3 = ((R3.toNat : ℤ)) := (Int.toNat_of_nonneg hR30).symm
  rw [hHn, hMin, hSn, hR3n]
  have hH100 : H.toNat < 100 := by omega
  have hMi100 : Mi.toNat < 100 := by omega
  have hS100 : S.toNat < 100 := by omega
  have hR1000 : R3.toNat < 1000 := by omega
  have hcolon : (":" : String).data = [':'] := rfl
  have hzz : ("00:" : String).data = ['0', '0', ':'] := rfl
  have d1 := digitChar_isDigit (H.toNat / 10) (by omega)
  have d2 := digitChar_isDigit (H.toNat % 10) (by omega)
  have d3 := digitChar_isDigit (Mi.toNat / 10) (by omega)
  have d4 := digitChar_isDigit (Mi.toNat % 10) (by omega)
  have d5 := digitChar_isDigit (S.toNat / 10) (by omega)
  have d6 := digitChar_isDigit (S.toNat % 10) (by omega)
  have d7 := digitChar_isDigit (R3.toNat / 100) (by omega)
  have d8 := digitChar_isDigit (R3.toNat / 10 % 10) (by omega)
  have d9 := digitChar_isDigit (R3.toNat % 10) (by omega)
  rcases hm with rfl | rfl <;>
    [have hmarker : ("," : String).data = [','] := rfl;
     have hmarker : ("." : String).data = ['.'] := rfl] <;>
  split_ifs with hif <;>
    simp only [strData_append, pad2_digits H.toNat hH100, pad2_digits Mi.toNat hMi100,
      pad2_digits S.toNat hS100, pad3_digits R3.toNat hR1000, hcolon, hzz, hmarker,
      List.append_assoc, List.cons_append, List.nil_append, tsPatternList,
      d1, d2, d3, d4, d5, d6, d7, d8, d9] <;>
  decide

/-- C4 counterexample: at `s = 360000` (one hundred hours, a non-negative
seconds value) the formatted timestamp is `100:00:00,000`, whose hour field
has three digits, so it does not match `^\d\d:\d\d:\d\d[,.]\d\d\d$` — refuting
the claim's universal pattern statement. -/
theorem format_timestamp_pattern_counterexample :
    (0 : ℚ) ≤ 360000 ∧ format_timestamp 360000 false "," = "100:00:00,000" ∧
      matchesTimestampPattern "100:00:00,000" = false :=
  ⟨by norm_num, ft_hundred_hours, by decide⟩

/-- C4 (amended): for every seconds value `s` with `0 ≤ s` and
`s * 1000 ≤ 359999999` (i.e. below one hundred hours), `format_timestamp`
returns a string matching `^\d\d:\d\d:\d\d[,.]\d\d\d$`; for larger values the
hour field widens beyond two digits. Moreover when hours is zero and
`always_include_hours` is false the hour field is still rendered as `00:`,
e.g. `format_timestamp 5 false "." = "00:00:05.000"`. -/
theorem format_timestamp_pattern_amended :
    (∀ (s : ℚ) (aih : Bool) (marker : String), 0 ≤ s → s * 1000 ≤ 359999999 →
      (marker = "," ∨ marker = ".") →
      matchesTimestampPattern (format_timestamp s aih marker) = true) ∧
    (∀ (s : ℚ) (marker : String), 0 ≤ s → s * 1000 ≤ 3599999 →
      (format_timestamp s false marker).data.take 3 = ['0', '0', ':']) ∧
    format_timestamp 5 false "." = "00:00:05.000" := by
  refine ⟨?_, ?_, ft_five⟩
  · intro s aih marker h0 h1 hm
    rw [format_timestamp_eq_formatMs]
    have hq0 : 0 ≤ pyRound (s * 1000) :=
      pyRound_nonneg _ (mul_nonneg h0 (by norm_num))
    have hq1 : pyRound (s * 1000) ≤ 359999999 :=
      pyRound_le_of_le (s * 1000) 359999999 (by exact_mod_cast h1)
    exact formatMs_pattern _ aih marker hq0 (by omega) hm
  · intro s marker h0 h1
    rw [format_timestamp_eq_formatMs]
    have hq0 : 0 ≤ pyRound (s * 1000) :=
      pyRound_nonneg _ (mul_nonneg h0 (by norm_num))
    have hq1 : pyRound (s * 1000) ≤ 3599999 :=
      pyRound_le_of_le (s * 1000) 3599999 (by exact_mod_cast h1)
    have hH : (pyRound (s * 1000)).fdiv 3600000 = 0 := by
      obtain ⟨ha, hb, -, -⟩ :=
        fdivStage (pyRound (s * 1000)) 3600000 1 (by norm_num) hq0 (by omega)
      omega
    simp only [formatMs, hH]
    rfl

/-- Closed instantiation of `format_timestamp_pattern_amended`, discharging
its hypotheses at `s = 2`. -/
theorem format_timestamp_pattern_amended_witness :
    (0 : ℚ) ≤ 2 ∧ (2 : ℚ) * 1000 ≤ 359999999 ∧
      matchesTimestampPattern (format_timestamp 2 true ",") = true :=
  ⟨by norm_num, by norm_num,
   format_timestamp_pattern_amended.1 2 true "," (by norm_num) (by norm_num) (Or.inl rfl)⟩
